import Mathlib

/-!
Verification of the control-plane state migrator (exporter / importer).

The definitions below are a shallow embedding of the Go sources:
  - `pkg/migration/exporter` (fetch.go: `UnstructuredFetcher.namespaceInScope`,
    `UnstructuredFetcher.shouldSkip`; export.go: `extraResources`,
    `IncludedExtraResource`, `shouldExport`, `customResourceGVR`, `Export`,
    `archive`);
  - `pkg/migration/crossplane/info.go` (`CollectInfo`);
  - `pkg/migration/importer` (import.go: `baseResources`, `isBaseResource`,
    `Import`, `PreflightChecks`, `contains`, `waitForConditions`).

Kubernetes objects are modelled as records of the fields the code reads; Go
maps used as string sets are modelled as lists with membership semantics;
remote calls are modelled as environment oracles returning `Except`.
-/

namespace Migration

/-- An owner reference, with just the fields the code reads. -/
structure OwnerRef where
  apiVersion : String
  kind : String
deriving DecidableEq, Repr

/-- Go's `strings.HasPrefix`, modelled on the underlying character list so
that concrete instances evaluate by `decide`. -/
def hasPrefix (s pre : String) : Bool :=
  pre.data.isPrefixOf s.data

/-- Go's `strings.HasSuffix`, modelled on the underlying character list so
that concrete instances evaluate by `decide`. -/
def hasSuffix (s suf : String) : Bool :=
  suf.data.isSuffixOf s.data

/-- Lookup in a string-keyed association list; models Go map indexing, where a
missing key (or a nil map) yields the zero value. -/
def lookup (l : List (String × String)) (k : String) : Option String :=
  (l.find? (fun p => p.1 == k)).map (fun p => p.2)

/-- An unstructured Kubernetes object: identity fields plus the paved
string-valued fields that `fieldpath.Pave(r.Object).GetString(path)` can read,
keyed by field path. -/
structure Obj where
  apiVersion : String
  kind : String
  name : String
  ns : String
  labels : List (String × String)
  ownerReferences : List OwnerRef
  fields : List (List String × String)
deriving DecidableEq, Repr

/-- `fieldpath.Pave(r.Object).GetString(path)`: `none` models the error case
(the callers use the zero value `""` then). -/
def getString (r : Obj) (path : List String) : Option String :=
  (r.fields.find? (fun p => p.1 == path)).map (fun p => p.2)

/-- The namespace scope configuration carried by `UnstructuredFetcher`
(`includedNamespaces` / `excludedNamespaces`, Go sets built from the options'
`IncludeNamespaces` / `ExcludeNamespaces` lists). -/
structure FetcherScope where
  includedNamespaces : List String
  excludedNamespaces : List String
deriving DecidableEq, Repr

/-- `UnstructuredFetcher.namespaceInScope` (fetch.go): with a non-empty include
set a namespace must be in it, and a namespace in the exclude set is always out
of scope. -/
def namespaceInScope (e : FetcherScope) (ns : String) : Bool :=
  if 0 < e.includedNamespaces.length && !(e.includedNamespaces.contains ns) then
    false
  else if e.excludedNamespaces.contains ns then
    false
  else
    true

/-- `UnstructuredFetcher.shouldSkip` (fetch.go): the per-object filter of the
resource fetcher, an ordered chain of early returns. Note the Helm-secret rule
reads the top-level field `type` of the object (`paved.GetString("type")`),
with `""` on a read error, and the Helm-label rule reads
`labels["app.kubernetes.io/managed-by"]` with the zero value on a nil map or a
missing key. -/
def shouldSkip (e : FetcherScope) (r : Obj) : Bool :=
  if (r.kind == "Namespace" && !namespaceInScope e r.name)
      || (r.ns != "" && !namespaceInScope e r.ns) then
    true
  else if r.kind == "ConfigMap" && r.name == "kube-root-ca.crt" then
    true
  else if (lookup r.labels "app.kubernetes.io/managed-by").getD "" == "Helm" then
    true
  else if r.kind == "Secret"
      && hasPrefix ((getString r ["type"]).getD "") "helm.sh/release" then
    true
  else if r.ownerReferences.any (fun ref => hasPrefix ref.apiVersion "pkg.crossplane.io") then
    true
  else if r.kind == "Lock" && hasPrefix r.apiVersion "pkg.crossplane.io" then
    true
  else
    false

/-- `Options` of the exporter (export.go). -/
structure Options where
  outputArchive : String
  includeNamespaces : List String
  excludeNamespaces : List String
  includeExtraResources : List String
  excludeResources : List String
  pauseBeforeExport : Bool
deriving DecidableEq, Repr

/-- `ControlPlaneStateExporter.extraResources` (export.go): a set built from
`IncludeExtraResources` with every member of `ExcludeResources` deleted. The
Go map is modelled as a list with membership semantics. -/
def extraResources (o : Options) : List String :=
  o.includeExtraResources.filter (fun r => !(o.excludeResources.contains r))

/-- Modelled from the spec: the defaulting of `IncludeExtraResources` happens
in the CLI flag layer, which is not among the repository files provided;
export.go documents the default as `namespaces, configmaps, secrets` and the
spec words it as "Defaults: namespaces, configmaps, secrets when none
specified". -/
def defaultedIncludeExtraResources (inc : List String) : List String :=
  if inc = [] then ["namespaces", "configmaps", "secrets"] else inc

/-- One entry of `CustomResourceDefinition.Spec.Versions`, with the fields the
exporter reads (`Name`, `Storage`, and whether `Subresources.Status` is
non-nil). -/
structure CRDVersion where
  name : String
  storage : Bool
  statusSubresource : Bool
deriving DecidableEq, Repr

/-- A `CustomResourceDefinition`, with the fields the exporter reads: the
metadata name (`GetName()`), owner references, `Spec.Group`,
`Spec.Names.Kind`, `Spec.Names.Categories` and `Spec.Versions`. -/
structure CRD where
  name : String
  group : String
  kind : String
  categories : List String
  versions : List CRDVersion
  ownerReferences : List OwnerRef
deriving DecidableEq, Repr

/-- `schema.GroupVersionResource`. -/
structure GVR where
  group : String
  version : String
  resource : String
deriving DecidableEq, Repr

/-- `ControlPlaneStateExporter.IncludedExtraResource` (export.go): membership
of a group-resource name in the set `extraResources()` computes. -/
def IncludedExtraResource (o : Options) (gr : String) : Bool :=
  (extraResources o).contains gr

/-- `ControlPlaneStateExporter.shouldExport` (export.go): a CRD is exported
when it is owned by a Crossplane package, owned by a
CompositeResourceDefinition, a built-in Crossplane type by name suffix, or an
included extra resource. -/
def shouldExport (o : Options) (crd : CRD) : Bool :=
  if crd.ownerReferences.any (fun ref =>
      ref.apiVersion == "pkg.crossplane.io/v1"
        || (ref.apiVersion == "apiextensions.crossplane.io/v1"
            && ref.kind == "CompositeResourceDefinition")) then
    true
  else if hasSuffix crd.name ".crossplane.io" then
    true
  else
    IncludedExtraResource o crd.name

/-- The storage-version computation inside `customResourceGVR` (export.go):
`version` starts as `""` and each version flagged `Storage` overwrites it, so
the result is the last storage version, or `""` when there is none. -/
def storageVersion (crd : CRD) : String :=
  crd.versions.foldl (fun v vr => if vr.storage then vr.name else v) ""

/-- `ControlPlaneStateExporter.customResourceGVR` (export.go): resolve the
storage version, then ask the REST mapper (an environment oracle taking group,
kind and version) for the mapping; the mapper's error is wrapped and returned,
its resource returned on success. No check that a storage version was found
happens before calling the mapper. -/
def customResourceGVR (restMapping : String → String → String → Except String GVR)
    (crd : CRD) : Except String GVR :=
  match restMapping crd.group crd.kind (storageVersion crd) with
  | Except.error e => Except.error ("cannot get REST mapping for " ++ crd.name ++ ": " ++ e)
  | Except.ok rm => Except.ok rm

/-- A container of a Deployment pod template, with the fields `CollectInfo`
reads (`Name`, `Args`). -/
structure Container where
  name : String
  args : List String
deriving DecidableEq, Repr

/-- A Deployment, with the fields `CollectInfo` reads: `Name`, `Namespace`,
`Labels` and `Spec.Template.Spec.Containers`. -/
structure Deployment where
  name : String
  ns : String
  labels : List (String × String)
  containers : List Container
deriving DecidableEq, Repr

/-- `v1alpha1.CrossplaneInfo`: the fields filled by `CollectInfo`. The Go zero
value has empty strings and a nil flag slice. -/
structure CrossplaneInfo where
  ns : String
  version : String
  distribution : String
  featureFlags : List String
deriving DecidableEq, Repr

/-- `crossplane.CollectInfo` (info.go): list all deployments (the listing is
an environment oracle whose failure is propagated), take the first one named
`crossplane`, read version and distribution from its labels (the zero value
when the label map is nil or the key missing), and collect as feature flags
every argument starting with `--enable` of the first container named
`crossplane` or `universal-crossplane`. When no deployment is named
`crossplane` the zero-valued info is returned with no error. -/
def CollectInfo (deployments : Except String (List Deployment)) :
    Except String CrossplaneInfo :=
  match deployments with
  | Except.error e =>
      Except.error ("cannot list deployments to find Crossplane deployment: " ++ e)
  | Except.ok dl =>
    match dl.find? (fun d => d.name == "crossplane") with
    | none => Except.ok { ns := "", version := "", distribution := "", featureFlags := [] }
    | some d =>
      Except.ok
        { ns := d.ns
          version := (lookup d.labels "app.kubernetes.io/version").getD ""
          distribution := (lookup d.labels "app.kubernetes.io/instance").getD ""
          featureFlags :=
            match d.containers.find? (fun c =>
                c.name == "crossplane" || c.name == "universal-crossplane") with
            | none => []
            | some c => c.args.filter (fun a => hasPrefix a "--enable") }

/-- `contains` (import.go): linear membership test over a string slice. -/
def contains (ss : List String) (s : String) : Bool :=
  ss.any (fun v => v == s)

/-- One preflight mismatch produced by `PreflightChecks` (import.go). -/
inductive PreflightError where
  | versionMismatch (observed exported : String)
  | missingFeatureFlag (flag : String)
deriving DecidableEq, Repr

/-- The mismatch-collection core of `ControlPlaneStateImporter.PreflightChecks`
(import.go), after the observed info and the export metadata have been read:
one error when the observed version differs from the exported one, then one
error per exported feature flag that `contains` does not find among the
observed flags. -/
def preflightChecks (observedVersion : String) (observedFlags : List String)
    (exportedVersion : String) (exportedFlags : List String) :
    List PreflightError :=
  (if observedVersion == exportedVersion then []
   else [PreflightError.versionMismatch observedVersion exportedVersion])
    ++ (exportedFlags.filter (fun ff => !(contains observedFlags ff))).map
        PreflightError.missingFeatureFlag

/-- `baseResources` (import.go): the fixed, ordered base tier of the import. -/
def baseResources : List String :=
  [ "namespaces"
  , "configmaps"
  , "secrets"
  , "controllerconfigs.pkg.crossplane.io"
  , "deploymentruntimeconfigs.pkg.crossplane.io"
  , "storeconfigs.secrets.crossplane.io"
  , "compositionrevisions.apiextensions.crossplane.io"
  , "compositions.apiextensions.crossplane.io"
  , "compositeresourcedefinitions.apiextensions.crossplane.io"
  , "providers.pkg.crossplane.io"
  , "functions.pkg.crossplane.io"
  , "configurations.pkg.crossplane.io" ]

/-- `isBaseResource` (import.go). -/
def isBaseResource (gr : String) : Bool :=
  baseResources.any (fun k => k == gr)

/-- The import `Options` (import.go). -/
structure ImportOptions where
  inputArchive : String
  unpauseAfterImport : Bool
deriving DecidableEq, Repr

/-- One externally visible action of `Import` (import.go), in the order the
code performs them: a per-group-resource `ImportResources` call (with its
apply-status flag), a `waitForConditions` call, the single
`resourceMapper.Reset()`, and a `ModifyResources` call for a category. -/
inductive ImportEvent where
  | importRes (gr : String) (applyStatus : Bool)
  | wait (group kind : String) (conditions : List String)
  | mapperReset
  | modifyCategory (category : String)
deriving DecidableEq, Repr

/-- The abort causes of `Import` (import.go). -/
inductive ImportError where
  | unarchiveFailed
  | importFailed (gr : String)
  | waitFailed (kind : String)
  | readDirFailed
  | unexpectedFile (name : String)
  | modifyFailed (category : String)
deriving DecidableEq, Repr

/-- An entry of `fs.ReadDir("/")`: a name and whether it is a directory. -/
structure DirEntry where
  name : String
  isDir : Bool
deriving DecidableEq, Repr

/-- The environment of one `Import` run: the outcome of each remote or
filesystem interaction the code performs. -/
structure ImportEnv where
  unarchiveOk : Bool
  importResources : String → Bool → Except Unit Nat
  waitOk : String → String → List String → Bool
  readDir : Except Unit (List DirEntry)
  modifyOk : String → Bool

/-- Sequencing of two traced steps with early abort, mirroring the Go early
returns: the second step runs only when the first succeeded, and the traces
concatenate. -/
def andThen (a : List ImportEvent × Except ImportError Unit)
    (b : Unit → List ImportEvent × Except ImportError Unit) :
    List ImportEvent × Except ImportError Unit :=
  match a with
  | (tr, Except.error e) => (tr, Except.error e)
  | (tr, Except.ok _) =>
    let r := b ()
    (tr ++ r.1, r.2)

/-- The base-tier loop of `Import` (import.go): `ImportResources(gr, false)`
for each base group resource in order, aborting at the first error. -/
def importBase (env : ImportEnv) : List String → List ImportEvent × Except ImportError Unit
  | [] => ([], Except.ok ())
  | gr :: rest =>
    match env.importResources gr false with
    | Except.error _ => ([ImportEvent.importRes gr false], Except.error (ImportError.importFailed gr))
    | Except.ok _ =>
      let r := importBase env rest
      (ImportEvent.importRes gr false :: r.1, r.2)

/-- The readiness barriers of `Import` (import.go), as the ordered list of
`waitForConditions` calls each barrier makes, aborting at the first failed
wait. -/
def waitSeq (env : ImportEnv) :
    List (String × String × List String) → List ImportEvent × Except ImportError Unit
  | [] => ([], Except.ok ())
  | (g, k, cs) :: rest =>
    if env.waitOk g k cs then
      let r := waitSeq env rest
      (ImportEvent.wait g k cs :: r.1, r.2)
    else
      ([ImportEvent.wait g k cs], Except.error (ImportError.waitFailed k))

/-- The `waitForConditions` calls of `Import` (import.go) in source order:
barrier A (CompositeResourceDefinitions Established), barrier B (Provider,
Function, Configuration each Installed and Healthy), barrier C
(ProviderRevision, FunctionRevision, ConfigurationRevision each Healthy). -/
def importWaitPlan : List (String × String × List String) :=
  [ ("apiextensions.crossplane.io", "CompositeResourceDefinition", ["Established"])
  , ("pkg.crossplane.io", "Provider", ["Installed", "Healthy"])
  , ("pkg.crossplane.io", "Function", ["Installed", "Healthy"])
  , ("pkg.crossplane.io", "Configuration", ["Installed", "Healthy"])
  , ("pkg.crossplane.io", "ProviderRevision", ["Healthy"])
  , ("pkg.crossplane.io", "FunctionRevision", ["Healthy"])
  , ("pkg.crossplane.io", "ConfigurationRevision", ["Healthy"]) ]

/-- The remainder-tier loop of `Import` (import.go): skip `export.yaml`, fail
on any other plain file, skip the already-imported base resources, and call
`ImportResources(name, true)` for the rest, aborting at the first error. -/
def importRemainder (env : ImportEnv) :
    List DirEntry → List ImportEvent × Except ImportError Unit
  | [] => ([], Except.ok ())
  | entry :: rest =>
    if entry.name == "export.yaml" then
      importRemainder env rest
    else if !entry.isDir then
      ([], Except.error (ImportError.unexpectedFile entry.name))
    else if isBaseResource entry.name then
      importRemainder env rest
    else
      match env.importResources entry.name true with
      | Except.error _ =>
          ([ImportEvent.importRes entry.name true], Except.error (ImportError.importFailed entry.name))
      | Except.ok _ =>
        let r := importRemainder env rest
        (ImportEvent.importRes entry.name true :: r.1, r.2)

/-- The unpause steps at the end of `Import` (import.go): composites, then
claims, then — only when `UnpauseAfterImport` is set — managed resources. -/
def importFinalize (env : ImportEnv) (o : ImportOptions) :
    List ImportEvent × Except ImportError Unit :=
  if env.modifyOk "composite" then
    if env.modifyOk "claim" then
      if o.unpauseAfterImport then
        if env.modifyOk "managed" then
          ([ImportEvent.modifyCategory "composite", ImportEvent.modifyCategory "claim",
            ImportEvent.modifyCategory "managed"], Except.ok ())
        else
          ([ImportEvent.modifyCategory "composite", ImportEvent.modifyCategory "claim",
            ImportEvent.modifyCategory "managed"], Except.error (ImportError.modifyFailed "managed"))
      else
        ([ImportEvent.modifyCategory "composite", ImportEvent.modifyCategory "claim"],
          Except.ok ())
    else
      ([ImportEvent.modifyCategory "composite", ImportEvent.modifyCategory "claim"],
        Except.error (ImportError.modifyFailed "claim"))
  else
    ([ImportEvent.modifyCategory "composite"], Except.error (ImportError.modifyFailed "composite"))

/-- `ControlPlaneStateImporter.Import` (import.go) as a trace of its
externally visible actions plus its result: unarchive, base tier, readiness
barriers, the single mapper reset, the remainder tier read from the root
directory listing, and the final unpause steps. -/
def importRun (env : ImportEnv) (o : ImportOptions) :
    List ImportEvent × Except ImportError Unit :=
  if !env.unarchiveOk then
    ([], Except.error ImportError.unarchiveFailed)
  else
    andThen (importBase env baseResources) (fun _ =>
      andThen (waitSeq env importWaitPlan) (fun _ =>
        andThen ([ImportEvent.mapperReset], Except.ok ()) (fun _ =>
          match env.readDir with
          | Except.error _ => ([], Except.error ImportError.readDirFailed)
          | Except.ok entries =>
            andThen (importRemainder env entries) (fun _ =>
              importFinalize env o))))

/-- One status condition (`xpv1.Condition`): a type and a status string
(`True`, `False` or `Unknown`). -/
structure Condition where
  condType : String
  status : String
deriving DecidableEq, Repr

/-- `ConditionedStatus.GetCondition`: the condition with the given type, or an
Unknown-status condition of that type when none is present. -/
def GetCondition (cs : List Condition) (t : String) : Condition :=
  match cs.find? (fun c => c.condType == t) with
  | some c => c
  | none => { condType := t, status := "Unknown" }

/-- The outcome of paving one listed resource's `status` into a
`ConditionedStatus` inside `waitForConditions` (import.go): a genuine parse
error (which makes the whole poll round give up), or the condition list (empty
when the `status` field is absent, `fieldpath.IsNotFound`). -/
inductive StatusParse where
  | parseError
  | conditions (cs : List Condition)
deriving DecidableEq, Repr

/-- One listed instance as `waitForConditions` sees it. -/
structure PolledResource where
  name : String
  status : StatusParse
deriving DecidableEq, Repr

/-- The unmet count of one poll round of `waitForConditions` (import.go):
`none` when some resource's status fails to parse (the round returns without
deciding), otherwise the number of resources missing at least one requested
condition with status `True` (each such resource counted once, by the inner
`break`). -/
def countUnmet (conds : List String) : List PolledResource → Option Nat
  | [] => some 0
  | r :: rest =>
    match r.status with
    | StatusParse.parseError => none
    | StatusParse.conditions cs =>
      match countUnmet conds rest with
      | none => none
      | some n =>
        if conds.any (fun c => !((GetCondition cs c).status == "True")) then
          some (n + 1)
        else
          some n

/-- One poll round of `waitForConditions` (import.go) succeeds — sets
`success` and cancels the wait — exactly when the listing worked, every status
parsed, and the unmet count is zero. A listing error only logs and the round
is retried. -/
def pollSucceeds (conds : List String)
    (round : Except Unit (List PolledResource)) : Bool :=
  match round with
  | Except.error _ => false
  | Except.ok items => countUnmet conds items == some 0

/-- The polling loop of `waitForConditions` (import.go) over the rounds the
10-minute deadline allows (one round each 5 seconds): the index of the first
successful round, or `none` when no round within the deadline succeeds and the
wait times out. -/
def firstSuccessfulPoll (conds : List String) :
    List (Except Unit (List PolledResource)) → Option Nat
  | [] => none
  | round :: rest =>
    if pollSucceeds conds round then
      some 0
    else
      (firstSuccessfulPoll conds rest).map (fun n => n + 1)

/-- The abort causes of `Export` (export.go), one per wrapped early return. -/
inductive ExportError where
  | tempDir
  | pause
  | fetchCRDs
  | crdGVR (name : String)
  | exportCR (name : String)
  | nativeGVR (r : String)
  | exportNative (r : String)
  | metadata
  | createOut
  | chmodOut
  | archiveWalk
deriving DecidableEq, Repr

/-- The filesystem facts `Export` (export.go) manipulates: whether the
temporary directory exists and whether a file exists at the configured output
archive path. -/
structure ExportFS where
  tmpExists : Bool
  outputExists : Bool
deriving DecidableEq, Repr

/-- The environment of one `Export` run: the outcome of each remote or
filesystem interaction the code performs. -/
structure ExportEnv where
  tempDirOk : Bool
  pauseOk : Bool
  crds : Except Unit (List CRD)
  restMapping : String → String → String → Except String GVR
  exportCR : GVR → Except Unit Nat
  nativeGVRFor : String → Except Unit GVR
  exportNative : GVR → Except Unit Nat
  metadataOk : Bool
  createOk : Bool
  chmodOk : Bool
  walkOk : Bool

/-- The per-CRD loop of `Export` (export.go) over the CRDs selected by
`shouldExport`: resolve the GVR, then export the resources, aborting at the
first error. The writes go to the temporary directory, so the modelled
filesystem facts do not change. -/
def exportCRDLoop (env : ExportEnv) : List CRD → Except ExportError Unit
  | [] => Except.ok ()
  | crd :: rest =>
    match customResourceGVR env.restMapping crd with
    | Except.error _ => Except.error (ExportError.crdGVR crd.name)
    | Except.ok gvr =>
      match env.exportCR gvr with
      | Except.error _ => Except.error (ExportError.exportCR crd.name)
      | Except.ok _ => exportCRDLoop env rest

/-- The native-resource loop of `Export` (export.go) over `extraResources()`:
resolve each GVR via `ResourceFor`, then export, aborting at the first
error. -/
def exportNativeLoop (env : ExportEnv) : List String → Except ExportError Unit
  | [] => Except.ok ()
  | r :: rest =>
    match env.nativeGVRFor r with
    | Except.error _ => Except.error (ExportError.nativeGVR r)
    | Except.ok gvr =>
      match env.exportNative gvr with
      | Except.error _ => Except.error (ExportError.exportNative r)
      | Except.ok _ => exportNativeLoop env rest

/-- `ControlPlaneStateExporter.archive` (export.go): `fs.Create` makes the
output file exist before anything is written into it; a later `Chmod` or
tar-walk error returns with the (partial) file still in place. -/
def archiveStep (env : ExportEnv) (st : ExportFS) : ExportFS × Except ExportError Unit :=
  if !env.createOk then
    (st, Except.error ExportError.createOut)
  else
    let st := { st with outputExists := true }
    if !env.chmodOk then
      (st, Except.error ExportError.chmodOut)
    else if !env.walkOk then
      (st, Except.error ExportError.archiveWalk)
    else
      (st, Except.ok ())

/-- The body of `Export` (export.go) after the temporary directory exists:
optional pause of managed resources, CRD listing, the selected-CRD loop, the
native-resource loop, the metadata write, then `archive`. Every early return
before `archive` leaves the modelled filesystem unchanged. -/
def exportBody (env : ExportEnv) (o : Options) (st : ExportFS) :
    ExportFS × Except ExportError Unit :=
  if o.pauseBeforeExport && !env.pauseOk then
    (st, Except.error ExportError.pause)
  else
    match env.crds with
    | Except.error _ => (st, Except.error ExportError.fetchCRDs)
    | Except.ok crdList =>
      match exportCRDLoop env (crdList.filter (fun crd => shouldExport o crd)) with
      | Except.error e => (st, Except.error e)
      | Except.ok _ =>
        match exportNativeLoop env (extraResources o) with
        | Except.error e => (st, Except.error e)
        | Except.ok _ =>
          if !env.metadataOk then
            (st, Except.error ExportError.metadata)
          else
            archiveStep env st

/-- `ControlPlaneStateExporter.Export` (export.go): create the temporary
directory, run the body, and — by the deferred `RemoveAll`, which runs on
success and on every early return alike — remove the temporary directory
before returning. -/
def exportRun (env : ExportEnv) (o : Options) (st0 : ExportFS) :
    ExportFS × Except ExportError Unit :=
  if !env.tempDirOk then
    (st0, Except.error ExportError.tempDir)
  else
    let r := exportBody env o { st0 with tmpExists := true }
    ({ r.1 with tmpExists := false }, r.2)

/-- A Secret whose document carries `spec.type = "helm.sh/release.v1"` but has
no top-level `type` field; its namespace `default` is in scope under the empty
scope configuration. -/
def specTypeHelmSecret : Obj :=
  { apiVersion := "v1"
    kind := "Secret"
    name := "sh.helm.release.v1.demo.v1"
    ns := "default"
    labels := []
    ownerReferences := []
    fields := [(["spec", "type"], "helm.sh/release.v1")] }

/-- A Secret whose top-level `type` field is `"helm.sh/release.v1"`, the field
the code actually reads. -/
def helmReleaseSecret : Obj :=
  { apiVersion := "v1"
    kind := "Secret"
    name := "sh.helm.release.v1.demo.v1"
    ns := "default"
    labels := []
    ownerReferences := []
    fields := [(["type"], "helm.sh/release.v1")] }

/-- Exporter options whose include-extra-resources and exclude-resources sets
share the member `foos.example.org`. -/
def bothIncludedExcludedOpts : Options :=
  { outputArchive := "xp-state.tar.gz"
    includeNamespaces := []
    excludeNamespaces := []
    includeExtraResources := ["foos.example.org"]
    excludeResources := ["foos.example.org"]
    pauseBeforeExport := false }

/-- A discovered CRD with no owner references whose name neither has the
suffix `.crossplane.io` nor escapes the exclude set. -/
def foosCRD : CRD :=
  { name := "foos.example.org"
    group := "example.org"
    kind := "Foo"
    categories := []
    versions := [{ name := "v1", storage := true, statusSubresource := false }]
    ownerReferences := [] }

/-- A CRD none of whose versions is marked as the storage version. -/
def noStorageCRD : CRD :=
  { name := "bars.example.org"
    group := "example.org"
    kind := "Bar"
    categories := []
    versions := [{ name := "v1", storage := false, statusSubresource := false }]
    ownerReferences := [] }

/-- A REST mapper that resolves every (group, kind, version) request,
including one whose version is the empty string — as a discovery-backed mapper
does, falling back to a preferred version. -/
def permissiveMapper : String → String → String → Except String GVR :=
  fun g _ _ => Except.ok { group := g, version := "v1", resource := "bars" }

/-- The root directory entries of a small exported archive: the metadata file,
one base-tier directory and one remainder-tier directory. -/
def happyImportEntries : List DirEntry :=
  [ { name := "export.yaml", isDir := false }
  , { name := "namespaces", isDir := true }
  , { name := "buckets.s3.aws.upbound.io", isDir := true } ]

/-- An import environment in which every interaction succeeds. -/
def happyImportEnv : ImportEnv :=
  { unarchiveOk := true
    importResources := fun _ _ => Except.ok 1
    waitOk := fun _ _ _ => true
    readDir := Except.ok happyImportEntries
    modifyOk := fun _ => true }

/-- Default exporter options: no scoping, no extra resources, no pause. -/
def plainExportOpts : Options :=
  { outputArchive := "xp-state.tar.gz"
    includeNamespaces := []
    excludeNamespaces := []
    includeExtraResources := []
    excludeResources := []
    pauseBeforeExport := false }

/-- An export environment in which everything succeeds except the tar walk
inside `archive`, which fails after the output file has been created. -/
def walkFailEnv : ExportEnv :=
  { tempDirOk := true
    pauseOk := true
    crds := Except.ok []
    restMapping := fun g _ v => Except.ok { group := g, version := v, resource := "" }
    exportCR := fun _ => Except.ok 0
    nativeGVRFor := fun _ => Except.ok { group := "", version := "v1", resource := "" }
    exportNative := fun _ => Except.ok 0
    metadataOk := true
    createOk := true
    chmodOk := true
    walkOk := false }

/-- An export environment in which listing the CRDs fails — a failure of a
step before the archive step. -/
def crdsFailEnv : ExportEnv :=
  { walkFailEnv with crds := Except.error (), walkOk := true }

/-- A deployment list entry that is not the Crossplane deployment. -/
def otherDeployment : Deployment :=
  { name := "nginx"
    ns := "default"
    labels := [("app.kubernetes.io/version", "1.0.0")]
    containers := [{ name := "nginx", args := ["--enable-foo"] }] }

end Migration

namespace Migration

/-- `contains ss s` is membership of `s` in `ss`. -/
theorem contains_iff (ss : List String) (s : String) : contains ss s = true ↔ s ∈ ss := by
  simp [contains]

/-- C8: a namespace is in scope iff the include set is empty or contains it,
and the exclude set does not contain it; in particular a namespace in both
sets is out of scope. -/
theorem namespaceInScope_iff (inc exc : List String) (n : String) :
    namespaceInScope { includedNamespaces := inc, excludedNamespaces := exc } n = true
      ↔ ((inc = [] ∨ n ∈ inc) ∧ n ∉ exc) := by
  unfold namespaceInScope
  rcases inc with _ | ⟨a, l⟩
  · by_cases he : n ∈ exc
    · have h2 : exc.contains n = true := List.elem_iff.mpr he
      simp [h2, he]
    · have h2 : exc.contains n = false := by simp [List.elem_iff, he]
      simp [h2, he]
  · by_cases hm : n ∈ a :: l
    · have h : (a :: l).contains n = true := List.elem_iff.mpr hm
      by_cases he : n ∈ exc
      · have h2 : exc.contains n = true := List.elem_iff.mpr he
        simp [h, h2, hm, he]
      · have h2 : exc.contains n = false := by simp [List.elem_iff, he]
        simp [h, h2, hm, he]
    · have h : (a :: l).contains n = false := by simp [List.elem_iff, hm]
      simp [h, hm]

/-- C2 counterexample: a Secret whose document has `spec.type =
"helm.sh/release.v1"` (and no top-level `type` field), in an in-scope
namespace, is NOT skipped: `shouldSkip` reads the top-level field `type`, not
`spec.type`. -/
theorem shouldSkip_ignores_spec_type_field :
    hasPrefix ((getString specTypeHelmSecret ["spec", "type"]).getD "") "helm.sh/release" = true
    ∧ namespaceInScope { includedNamespaces := [], excludedNamespaces := [] }
        specTypeHelmSecret.ns = true
    ∧ shouldSkip { includedNamespaces := [], excludedNamespaces := [] }
        specTypeHelmSecret = false := by
  refine ⟨by decide, by decide, by decide⟩

/-- C2 amended: for every object with kind `Secret` whose top-level field
`type` starts with `helm.sh/release`, `shouldSkip` returns true, whatever the
scope configuration — in particular even when its namespace is in scope. -/
theorem shouldSkip_helm_release_secret (e : FetcherScope) (r : Obj)
    (hk : r.kind = "Secret")
    (ht : hasPrefix ((getString r ["type"]).getD "") "helm.sh/release" = true) :
    shouldSkip e r = true := by
  simp [shouldSkip, hk, ht]

/-- C2 amended, witness: the Secret with top-level `type =
"helm.sh/release.v1"` is skipped under the empty scope configuration. -/
theorem shouldSkip_helm_release_secret_witness :
    shouldSkip { includedNamespaces := [], excludedNamespaces := [] }
      helmReleaseSecret = true :=
  shouldSkip_helm_release_secret
    { includedNamespaces := [], excludedNamespaces := [] }
    helmReleaseSecret rfl (by decide)

/-- C1: the native-type universe enumerated for export is exactly
`includeExtraResources` minus `excludeResources`, and the defaulting layer
(modelled from the spec: it lives in the CLI flag code, outside the provided
files) turns an empty `includeExtraResources` into
`namespaces, configmaps, secrets`. -/
theorem extraResources_universe (o : Options) (r : String) :
    (r ∈ extraResources o ↔ r ∈ o.includeExtraResources ∧ r ∉ o.excludeResources)
    ∧ defaultedIncludeExtraResources [] = ["namespaces", "configmaps", "secrets"] := by
  constructor
  · simp [extraResources, List.mem_filter, List.elem_iff]
  · rfl

/-- C5: preflight emits exactly one version-mismatch error when the observed
version differs from the exported one, plus one missing-feature-flag error per
exported flag absent from the target; flags only on the target contribute
nothing, and the collection is empty iff the version matches and every
exported flag is present. -/
theorem preflightChecks_characterization (ov ev : String) (ofl efl : List String) :
    ((preflightChecks ov ofl ev efl).length
        = (if ov = ev then 0 else 1) + (efl.filter (fun f => decide (f ∉ ofl))).length)
    ∧ (∀ a b : String, PreflightError.versionMismatch a b ∈ preflightChecks ov ofl ev efl
        ↔ (a = ov ∧ b = ev ∧ ov ≠ ev))
    ∧ (∀ f : String, PreflightError.missingFeatureFlag f ∈ preflightChecks ov ofl ev efl
        ↔ (f ∈ efl ∧ f ∉ ofl))
    ∧ (preflightChecks ov ofl ev efl = [] ↔ (ov = ev ∧ ∀ f ∈ efl, f ∈ ofl)) := by
  have hf : efl.filter (fun ff => !(contains ofl ff)) = efl.filter (fun f => decide (f ∉ ofl)) := by
    apply List.filter_congr
    intro f _
    by_cases hm : f ∈ ofl
    · simp [contains_iff, hm]
    · have hcf : contains ofl f = false := by
        rcases h : contains ofl f
        · rfl
        · exact absurd (contains_iff ofl f |>.mp h) hm
      simp [hcf, hm]
  refine ⟨?_, ?_, ?_, ?_⟩
  · by_cases h : ov = ev <;> simp [preflightChecks, h, hf, Nat.add_comm]
  · intro a b
    by_cases h : ov = ev <;> simp [preflightChecks, h]
  · intro f
    by_cases h : ov = ev <;>
      simp [preflightChecks, h, hf, List.mem_filter]
  · by_cases h : ov = ev <;> simp [preflightChecks, h, hf, List.filter_eq_nil_iff]

/-- C6 counterexample: a CRD whose name is in `includeExtraResources` but also
in `excludeResources`, with no owner references and no `.crossplane.io`
suffix, is NOT selected: the code consults include-minus-exclude, not the
include set alone. -/
theorem shouldExport_excluded_extra_cex :
    foosCRD.name ∈ bothIncludedExcludedOpts.includeExtraResources
    ∧ foosCRD.ownerReferences = []
    ∧ hasSuffix foosCRD.name ".crossplane.io" = false
    ∧ shouldExport bothIncludedExcludedOpts foosCRD = false := by
  refine ⟨by decide, rfl, by decide, by decide⟩

/-- C6 amended: a discovered CRD is selected iff it has an owner reference
with apiVersion `pkg.crossplane.io/v1`, or one with apiVersion
`apiextensions.crossplane.io/v1` and kind `CompositeResourceDefinition`, or
its name ends in `.crossplane.io`, or its name is in `includeExtraResources`
minus `excludeResources`. -/
theorem shouldExport_iff (o : Options) (crd : CRD) :
    shouldExport o crd = true
      ↔ ((∃ ref ∈ crd.ownerReferences, ref.apiVersion = "pkg.crossplane.io/v1")
        ∨ (∃ ref ∈ crd.ownerReferences, ref.apiVersion = "apiextensions.crossplane.io/v1"
            ∧ ref.kind = "CompositeResourceDefinition")
        ∨ hasSuffix crd.name ".crossplane.io" = true
        ∨ (crd.name ∈ o.includeExtraResources ∧ crd.name ∉ o.excludeResources)) := by
  unfold shouldExport IncludedExtraResource extraResources
  by_cases h1 : crd.ownerReferences.any (fun ref =>
      ref.apiVersion == "pkg.crossplane.io/v1"
        || (ref.apiVersion == "apiextensions.crossplane.io/v1"
            && ref.kind == "CompositeResourceDefinition")) = true
  · simp only [h1, if_true, true_iff]
    rcases List.any_eq_true.mp h1 with ⟨ref, hm, hp⟩
    rcases Bool.or_eq_true_iff.mp hp with hp | hp
    · exact Or.inl ⟨ref, hm, by simpa using hp⟩
    · refine Or.inr (Or.inl ⟨ref, hm, ?_⟩)
      rcases Bool.and_eq_true_iff.mp hp with ⟨ha, hb⟩
      exact ⟨by simpa using ha, by simpa using hb⟩
  · have h1' : ¬((∃ ref ∈ crd.ownerReferences, ref.apiVersion = "pkg.crossplane.io/v1")
        ∨ (∃ ref ∈ crd.ownerReferences, ref.apiVersion = "apiextensions.crossplane.io/v1"
            ∧ ref.kind = "CompositeResourceDefinition")) := by
      intro hc
      apply h1
      apply List.any_eq_true.mpr
      rcases hc with ⟨ref, hm, hp⟩ | ⟨ref, hm, hp1, hp2⟩
      · exact ⟨ref, hm, by simp [hp]⟩
      · exact ⟨ref, hm, by simp [hp1, hp2]⟩
    rw [Bool.not_eq_true] at h1
    simp only [h1, Bool.false_eq_true, if_false]
    by_cases h2 : hasSuffix crd.name ".crossplane.io" = true
    · simp [h2]
    · rw [Bool.not_eq_true] at h2
      simp only [h2, Bool.false_eq_true, if_false]
      rw [List.contains_iff_exists_mem_beq]
      push_neg at h1'
      constructor
      · rintro ⟨a, ha, hab⟩
        have ha2 : crd.name = a := by simpa using hab
        subst ha2
        rcases List.mem_filter.mp ha with ⟨hin, hex⟩
        refine Or.inr (Or.inr (Or.inr ⟨hin, ?_⟩))
        simpa using hex
      · rintro (⟨ref, hm, hp⟩ | ⟨ref, hm, hp1, hp2⟩ | hs | ⟨hin, hex⟩)
        · exact absurd hp (h1'.1 ref hm)
        · exact absurd hp2 (h1'.2 ref hm hp1)
        · exact absurd hs (by simp [h2])
        · refine ⟨crd.name, List.mem_filter.mpr ⟨hin, by simpa using hex⟩, by simp⟩

/-- `storageVersion` leaves the accumulator unchanged over versions none of
which is marked storage. -/
theorem foldl_no_storage (l : List CRDVersion) (init : String)
    (h : ∀ vr ∈ l, vr.storage = false) :
    l.foldl (fun v vr => if vr.storage then vr.name else v) init = init := by
  induction l generalizing init with
  | nil => rfl
  | cons hd tl ih =>
    have hh : hd.storage = false := h hd (List.mem_cons_self hd tl)
    simp only [List.foldl_cons, hh, Bool.false_eq_true, if_false]
    exact ih init (fun vr hv => h vr (List.mem_cons_of_mem hd hv))

/-- C7 counterexample: resolving a CRD none of whose versions is marked
storage does not return an error when the environment's REST mapper resolves
the empty-version request — the code never checks that a storage version was
found. -/
theorem customResourceGVR_no_storage_ok :
    (noStorageCRD.versions.all (fun vr => !vr.storage)) = true
    ∧ customResourceGVR permissiveMapper noStorageCRD
        = Except.ok { group := "example.org", version := "v1", resource := "bars" } := by
  exact ⟨by decide, rfl⟩

/-- C7 amended: resolution fails exactly when the REST mapping of (group,
kind, v) fails, where v is the name of the last version marked storage, or the
empty string when none is marked; a missing storage version by itself produces
no error. -/
theorem customResourceGVR_error_iff
    (rm : String → String → String → Except String GVR) (crd : CRD) :
    ((∃ e, customResourceGVR rm crd = Except.error e)
      ↔ ∃ e, rm crd.group crd.kind (storageVersion crd) = Except.error e)
    ∧ ((crd.versions.all (fun vr => !vr.storage)) = true → storageVersion crd = "") := by
  constructor
  · unfold customResourceGVR
    cases h : rm crd.group crd.kind (storageVersion crd) <;> simp [h]
  · intro h
    unfold storageVersion
    exact foldl_no_storage crd.versions "" (by simpa [List.all_eq_true] using h)

/-- C9: a readiness wait whose first poll round lists successfully and finds
zero instances succeeds at that very round (index 0), whatever the requested
conditions and later rounds — it does not run to the deadline. -/
theorem firstSuccessfulPoll_empty_listing (conds : List String)
    (rest : List (Except Unit (List PolledResource))) :
    firstSuccessfulPoll conds (Except.ok [] :: rest) = some 0 := by
  simp [firstSuccessfulPoll, pollSucceeds, countUnmet]

/-- C10: when the deployment listing succeeds but contains no deployment named
`crossplane`, `CollectInfo` returns the zero-valued info — empty namespace,
version and distribution, no feature flags — and no error. -/
theorem collectInfo_no_crossplane (dl : List Deployment)
    (h : ∀ d ∈ dl, d.name ≠ "crossplane") :
    CollectInfo (Except.ok dl)
      = Except.ok { ns := "", version := "", distribution := "", featureFlags := [] } := by
  unfold CollectInfo
  have hn : dl.find? (fun d => d.name == "crossplane") = none := by
    apply List.find?_eq_none.mpr
    intro d hd
    simp [h d hd]
  simp [hn]

/-- When a sequenced pair of traced steps succeeds, both steps succeeded and
the trace is the concatenation of theirs. -/
theorem andThen_ok (a : List ImportEvent × Except ImportError Unit)
    (b : Unit → List ImportEvent × Except ImportError Unit)
    (h : (andThen a b).2 = Except.ok ()) :
    a.2 = Except.ok () ∧ (b ()).2 = Except.ok ()
      ∧ (andThen a b).1 = a.1 ++ (b ()).1 := by
  obtain ⟨tr, res⟩ := a
  cases res with
  | error e => simp [andThen] at h
  | ok u => exact ⟨rfl, by simpa [andThen] using h, by simp [andThen]⟩

/-- A successful base-tier loop imports exactly its list, in order, with the
status subresource disabled. -/
theorem importBase_ok_trace (env : ImportEnv) :
    ∀ l : List String, (importBase env l).2 = Except.ok () →
      (importBase env l).1 = l.map (fun gr => ImportEvent.importRes gr false) := by
  intro l
  induction l with
  | nil => intro _; rfl
  | cons gr rest ih =>
    intro h
    cases hr : env.importResources gr false with
    | error e => simp [importBase, hr] at h
    | ok n =>
      simp only [importBase, hr] at h ⊢
      simp [ih h]

/-- A successful barrier sequence performs exactly its planned waits, in
order. -/
theorem waitSeq_ok_trace (env : ImportEnv) :
    ∀ l : List (String × String × List String), (waitSeq env l).2 = Except.ok () →
      (waitSeq env l).1 = l.map (fun x => ImportEvent.wait x.1 x.2.1 x.2.2) := by
  intro l
  induction l with
  | nil => intro _; rfl
  | cons x rest ih =>
    intro h
    obtain ⟨g, k, cs⟩ := x
    cases hw : env.waitOk g k cs with
    | false => simp [waitSeq, hw] at h
    | true =>
      simp only [waitSeq, hw, if_true] at h ⊢
      simp [ih h]

/-- A successful remainder-tier loop imports exactly the directory entries
that are neither `export.yaml` nor base resources, in listing order, with the
status subresource enabled. -/
theorem importRemainder_ok_trace (env : ImportEnv) :
    ∀ l : List DirEntry, (importRemainder env l).2 = Except.ok () →
      (importRemainder env l).1 =
        (l.filter (fun e => !(e.name == "export.yaml") && !(isBaseResource e.name))).map
          (fun e => ImportEvent.importRes e.name true) := by
  intro l
  induction l with
  | nil => intro _; rfl
  | cons entry rest ih =>
    intro h
    by_cases h1 : entry.name = "export.yaml"
    · simp only [importRemainder, h1] at h ⊢
      simpa [h1] using ih (by simpa using h)
    · have h1b : (entry.name == "export.yaml") = false := by simp [h1]
      by_cases h2 : entry.isDir
      · by_cases h3 : isBaseResource entry.name = true
        · simp only [importRemainder, h1b, h2, h3] at h ⊢
          simpa [h1b, h3] using ih (by simpa [h1b, h2, h3] using h)
        · have h3b : isBaseResource entry.name = false := by
            cases hx : isBaseResource entry.name
            · rfl
            · exact absurd hx h3
          cases hr : env.importResources entry.name true with
          | error e =>
            simp [importRemainder, h1b, h2, h3b, hr] at h
          | ok n =>
            simp only [importRemainder, h1b, h2, h3b, hr] at h ⊢
            simp [h1b, h3b, ih (by simpa using h)]
      · have h2b : entry.isDir = false := by
          cases hx : entry.isDir
          · rfl
          · exact absurd hx h2
        simp [importRemainder, h1b, h2b] at h

/-- A successful finalization unpauses composites, then claims, then managed
resources exactly when the option asks for it. -/
theorem importFinalize_ok_trace (env : ImportEnv) (o : ImportOptions)
    (h : (importFinalize env o).2 = Except.ok ()) :
    (importFinalize env o).1 =
      [ImportEvent.modifyCategory "composite", ImportEvent.modifyCategory "claim"]
        ++ (if o.unpauseAfterImport then [ImportEvent.modifyCategory "managed"] else []) := by
  by_cases h1 : env.modifyOk "composite"
  · by_cases h2 : env.modifyOk "claim"
    · by_cases h3 : o.unpauseAfterImport
      · by_cases h4 : env.modifyOk "managed"
        · simp [importFinalize, h1, h2, h3, h4]
        · simp [importFinalize, h1, h2, h3, h4] at h
      · simp [importFinalize, h1, h2, h3]
    · simp [importFinalize, h1, h2] at h
  · simp [importFinalize, h1] at h

/-- C3: in every import run that completes successfully, the actions happen in
this exact order: the base tier (namespaces, configmaps, secrets,
controllerconfigs, deploymentruntimeconfigs, storeconfigs,
compositionrevisions, compositions, compositeresourcedefinitions, providers,
functions, configurations, status replay disabled); readiness barrier A
(CompositeResourceDefinitions Established), barrier B (Providers, Functions,
Configurations Installed and Healthy), barrier C (the three revision kinds
Healthy); exactly one mapper reset; the remainder tier (every root directory
other than `export.yaml` and the base tier, status replay enabled); composite
unpause, claim unpause, and managed unpause exactly when `unpauseAfterImport`
is set. -/
theorem import_replay_order (env : ImportEnv) (o : ImportOptions) (entries : List DirEntry)
    (hdir : env.readDir = Except.ok entries)
    (hok : (importRun env o).2 = Except.ok ()) :
    (importRun env o).1 =
      [ImportEvent.importRes "namespaces" false,
       ImportEvent.importRes "configmaps" false,
       ImportEvent.importRes "secrets" false,
       ImportEvent.importRes "controllerconfigs.pkg.crossplane.io" false,
       ImportEvent.importRes "deploymentruntimeconfigs.pkg.crossplane.io" false,
       ImportEvent.importRes "storeconfigs.secrets.crossplane.io" false,
       ImportEvent.importRes "compositionrevisions.apiextensions.crossplane.io" false,
       ImportEvent.importRes "compositions.apiextensions.crossplane.io" false,
       ImportEvent.importRes "compositeresourcedefinitions.apiextensions.crossplane.io" false,
       ImportEvent.importRes "providers.pkg.crossplane.io" false,
       ImportEvent.importRes "functions.pkg.crossplane.io" false,
       ImportEvent.importRes "configurations.pkg.crossplane.io" false,
       ImportEvent.wait "apiextensions.crossplane.io" "CompositeResourceDefinition" ["Established"],
       ImportEvent.wait "pkg.crossplane.io" "Provider" ["Installed", "Healthy"],
       ImportEvent.wait "pkg.crossplane.io" "Function" ["Installed", "Healthy"],
       ImportEvent.wait "pkg.crossplane.io" "Configuration" ["Installed", "Healthy"],
       ImportEvent.wait "pkg.crossplane.io" "ProviderRevision" ["Healthy"],
       ImportEvent.wait "pkg.crossplane.io" "FunctionRevision" ["Healthy"],
       ImportEvent.wait "pkg.crossplane.io" "ConfigurationRevision" ["Healthy"],
       ImportEvent.mapperReset]
      ++ (entries.filter (fun e => !(e.name == "export.yaml") && !(isBaseResource e.name))).map
          (fun e => ImportEvent.importRes e.name true)
      ++ ([ImportEvent.modifyCategory "composite", ImportEvent.modifyCategory "claim"]
          ++ (if o.unpauseAfterImport then [ImportEvent.modifyCategory "managed"] else [])) := by
  unfold importRun at hok ⊢
  cases hu : env.unarchiveOk with
  | false => rw [hu] at hok; simp at hok
  | true =>
    simp only [hu, Bool.not_true, Bool.false_eq_true, if_false] at hok ⊢
    rw [hdir] at hok ⊢
    obtain ⟨hbase, hrest1, htr1⟩ := andThen_ok _ _ hok
    obtain ⟨hwait, hrest2, htr2⟩ := andThen_ok _ _ hrest1
    obtain ⟨hreset, hrest3, htr3⟩ := andThen_ok _ _ hrest2
    obtain ⟨hrem, hfin, htr4⟩ := andThen_ok _ _ hrest3
    rw [htr1, importBase_ok_trace env baseResources hbase]
    rw [htr2, waitSeq_ok_trace env importWaitPlan hwait]
    rw [htr3, htr4]
    rw [importRemainder_ok_trace env entries hrem, importFinalize_ok_trace env o hfin]
    simp [baseResources, importWaitPlan]

/-- C3 witness: a concrete all-successful run, over an archive holding
`export.yaml`, the base directory `namespaces` and the remainder directory
`buckets.s3.aws.upbound.io`, produces exactly the claimed trace. -/
theorem import_replay_order_witness :
    (importRun happyImportEnv { inputArchive := "xp-state.tar.gz", unpauseAfterImport := false }).1
      = [ImportEvent.importRes "namespaces" false,
         ImportEvent.importRes "configmaps" false,
         ImportEvent.importRes "secrets" false,
         ImportEvent.importRes "controllerconfigs.pkg.crossplane.io" false,
         ImportEvent.importRes "deploymentruntimeconfigs.pkg.crossplane.io" false,
         ImportEvent.importRes "storeconfigs.secrets.crossplane.io" false,
         ImportEvent.importRes "compositionrevisions.apiextensions.crossplane.io" false,
         ImportEvent.importRes "compositions.apiextensions.crossplane.io" false,
         ImportEvent.importRes "compositeresourcedefinitions.apiextensions.crossplane.io" false,
         ImportEvent.importRes "providers.pkg.crossplane.io" false,
         ImportEvent.importRes "functions.pkg.crossplane.io" false,
         ImportEvent.importRes "configurations.pkg.crossplane.io" false,
         ImportEvent.wait "apiextensions.crossplane.io" "CompositeResourceDefinition" ["Established"],
         ImportEvent.wait "pkg.crossplane.io" "Provider" ["Installed", "Healthy"],
         ImportEvent.wait "pkg.crossplane.io" "Function" ["Installed", "Healthy"],
         ImportEvent.wait "pkg.crossplane.io" "Configuration" ["Installed", "Healthy"],
         ImportEvent.wait "pkg.crossplane.io" "ProviderRevision" ["Healthy"],
         ImportEvent.wait "pkg.crossplane.io" "FunctionRevision" ["Healthy"],
         ImportEvent.wait "pkg.crossplane.io" "ConfigurationRevision" ["Healthy"],
         ImportEvent.mapperReset,
         ImportEvent.importRes "buckets.s3.aws.upbound.io" true,
         ImportEvent.modifyCategory "composite",
         ImportEvent.modifyCategory "claim"] := by
  rw [import_replay_order happyImportEnv
    { inputArchive := "xp-state.tar.gz", unpauseAfterImport := false }
    happyImportEntries rfl rfl]
  rfl

/-- The body of an export run never touches the temporary-directory fact, and
it changes the output-path fact only inside the archive step: on any outcome
other than a chmod or tar-walk error (or success) the output path is left as
it was. -/
theorem exportBody_cases (env : ExportEnv) (o : Options) (st : ExportFS) :
    (exportBody env o st).1.tmpExists = st.tmpExists
    ∧ ((exportBody env o st).1.outputExists = st.outputExists
        ∨ (exportBody env o st).2 = Except.error ExportError.chmodOut
        ∨ (exportBody env o st).2 = Except.error ExportError.archiveWalk
        ∨ (exportBody env o st).2 = Except.ok ()) := by
  by_cases hp : (o.pauseBeforeExport && !env.pauseOk) = true
  · simp [exportBody, hp]
  · rw [Bool.not_eq_true] at hp
    cases hc : env.crds with
    | error e => simp [exportBody, hp, hc]
    | ok crdList =>
      cases hl : exportCRDLoop env (crdList.filter (fun crd => shouldExport o crd)) with
      | error e => simp [exportBody, hp, hc, hl]
      | ok u =>
        cases hn : exportNativeLoop env (extraResources o) with
        | error e => simp [exportBody, hp, hc, hl, hn]
        | ok v =>
          by_cases hm : env.metadataOk = true
          · by_cases hcr : env.createOk = true
            · by_cases hch : env.chmodOk = true
              · by_cases hw : env.walkOk = true
                · simp [exportBody, archiveStep, hp, hc, hl, hn, hm, hcr, hch, hw]
                · rw [Bool.not_eq_true] at hw
                  simp [exportBody, archiveStep, hp, hc, hl, hn, hm, hcr, hch, hw]
              · rw [Bool.not_eq_true] at hch
                simp [exportBody, archiveStep, hp, hc, hl, hn, hm, hcr, hch]
            · rw [Bool.not_eq_true] at hcr
              simp [exportBody, archiveStep, hp, hc, hl, hn, hm, hcr]
          · rw [Bool.not_eq_true] at hm
            simp [exportBody, hp, hc, hl, hn, hm]

/-- C4 counterexample: when the tar walk inside `archive` fails, the run
returns an error, yet a (partial) output file exists at the configured output
path — the no-archive part of the claim fails for errors inside the archive
step. -/
theorem export_partial_archive_cex :
    (exportRun walkFailEnv plainExportOpts { tmpExists := false, outputExists := false }).2
      = Except.error ExportError.archiveWalk
    ∧ (exportRun walkFailEnv plainExportOpts
        { tmpExists := false, outputExists := false }).1.outputExists = true := by
  exact ⟨rfl, rfl⟩

/-- C4 amended: starting with nothing at the output path, the temporary
directory is removed whether the run succeeds or fails, and a failing run
leaves no output archive unless the failure happened inside the archive step
after the output file was created (a chmod or tar-walk error), in which case a
partial file remains. -/
theorem export_cleanup_and_no_archive (env : ExportEnv) (o : Options) :
    (exportRun env o { tmpExists := false, outputExists := false }).1.tmpExists = false
    ∧ (∀ e, (exportRun env o { tmpExists := false, outputExists := false }).2
          = Except.error e →
        e ≠ ExportError.chmodOut → e ≠ ExportError.archiveWalk →
        (exportRun env o { tmpExists := false, outputExists := false }).1.outputExists
          = false) := by
  constructor
  · unfold exportRun
    cases ht : env.tempDirOk with
    | false => simp [ht]
    | true => simp [ht]
  · intro e he h1 h2
    cases ht : env.tempDirOk with
    | false =>
      unfold exportRun
      simp [ht]
    | true =>
      have hsnd : (exportRun env o { tmpExists := false, outputExists := false }).2
          = (exportBody env o { tmpExists := true, outputExists := false }).2 := by
        simp [exportRun, ht]
      have hfst : (exportRun env o
            { tmpExists := false, outputExists := false }).1.outputExists
          = (exportBody env o { tmpExists := true, outputExists := false }).1.outputExists := by
        simp [exportRun, ht]
      rw [hsnd] at he
      rw [hfst]
      obtain ⟨htmp, hout⟩ :=
        exportBody_cases env o { tmpExists := true, outputExists := false }
      rcases hout with h | h | h | h
      · exact h
      · rw [h] at he
        injection he with h3
        exact absurd h3.symm h1
      · rw [h] at he
        injection he with h3
        exact absurd h3.symm h2
      · rw [h] at he
        simp at he

/-- C4 witness: with a CRD-listing failure — a failure before the archive
step — the run errors, the temporary directory is gone and no output file
exists. -/
theorem export_cleanup_witness :
    (exportRun crdsFailEnv plainExportOpts
        { tmpExists := false, outputExists := false }).1.tmpExists = false
    ∧ (exportRun crdsFailEnv plainExportOpts
        { tmpExists := false, outputExists := false }).1.outputExists = false :=
  ⟨(export_cleanup_and_no_archive crdsFailEnv plainExportOpts).1,
   (export_cleanup_and_no_archive crdsFailEnv plainExportOpts).2
     ExportError.fetchCRDs rfl (by decide) (by decide)⟩

/-- C10 witness: a list holding one deployment named `nginx` yields the
zero-valued info. -/
theorem collectInfo_no_crossplane_witness :
    CollectInfo (Except.ok [otherDeployment])
      = Except.ok { ns := "", version := "", distribution := "", featureFlags := [] } :=
  collectInfo_no_crossplane [otherDeployment] (by decide)

end Migration
